import Mathlib

/-!
# Verification of the multi-account request-dispatch core

A shallow embedding, in Lean 4, of the components of the
Antigravity OAuth plugin that the specification's testable properties
talk about:

* the credential codec (`src/plugin/auth.ts`),
* the persistent account store and its schema migrations (`storage`),
* the account manager's selection and rate-limit logic (`accounts`),
* the token refresher (`token`),
* the thinking-signature cache and the Claude request transform
  (`cache`, `transform/claude.ts`),
* the tool-schema cache, Gemini tool-name sanitization and tool-call
  argument normalization (`tool-schema-cache.ts`, `transform/types.ts`,
  response normalization helpers),
* the exponential backoff helper of the dispatch loop.

JavaScript strings are modelled as `List Char` for the codec (where
splitting/joining is the heart of the algorithm) and as Lean `String`
elsewhere.  JavaScript `undefined` (an absent field) is `Option.none`;
JavaScript truthiness of a string is "non-empty", of a number
"non-zero", of a boolean "is true".  `Date.now()` is passed explicitly
as a `now : Nat` argument.  Mutation of in-memory objects is rendered
as explicit state passing.
-/

/-- JavaScript strings, for the credential codec: a list of characters. -/
abbrev Str := List Char

/-- Truthiness of an optional JS string: present and non-empty. -/
def strTruthy : Option Str → Bool
  | some s => !s.isEmpty
  | none => false

namespace Codec

/-- Structured credential parts, from `src/plugin/types.ts`:
`{ refreshToken: string, projectId?: string, managedProjectId?: string }`.
A field that is `undefined` is `none`; `parseRefreshParts` never produces
`some ""`. -/
structure RefreshParts where
  refreshToken : Str
  projectId : Option Str
  managedProjectId : Option Str
  deriving DecidableEq, Repr

/-- `{ accounts: RefreshParts[] }` from `parseMultiAccountRefresh`. -/
structure MultiAccountRefreshParts where
  accounts : List RefreshParts
  deriving DecidableEq, Repr

/-- JS `p || undefined`: an empty string collapses to `undefined`. -/
def orUndefined (s : Str) : Option Str :=
  if s = [] then none else some s

/-- `parseRefreshParts` (auth.ts): split the packed string on `"|"`;
the first segment is the refresh token, the second the project id and
the third the managed project id, empty segments collapsing to
`undefined`.  Missing segments default to the empty string exactly as
the JS array destructuring defaults do. -/
def parseRefreshParts (refresh : Str) : RefreshParts :=
  let segs := refresh.splitOn '|'
  { refreshToken := segs.getD 0 []
    projectId := orUndefined (segs.getD 1 [])
    managedProjectId := orUndefined (segs.getD 2 []) }

/-- `formatRefreshParts` (auth.ts): `refreshToken|projectId`, with a
third segment appended only when `managedProjectId` is truthy. -/
def formatRefreshParts (parts : RefreshParts) : Str :=
  let projectSegment := parts.projectId.getD []
  let base := parts.refreshToken ++ '|' :: projectSegment
  match parts.managedProjectId with
  | some m => if m = [] then base else base ++ '|' :: m
  | none => base

/-- JS `String.prototype.trim`: drop whitespace from both ends. -/
def trimChars (s : Str) : Str :=
  ((s.dropWhile Char.isWhitespace).reverse.dropWhile Char.isWhitespace).reverse

/-- Splitting a character list on a two-character separator `a`, `b`, as
JS `split` does for the `"||"` account separator: scan left to right and
cut at each occurrence of the two-character pattern. -/
def splitOnSep2 (a b : Char) : Str → List Str
  | [] => [[]]
  | [x] => [[x]]
  | x :: y :: rest =>
    if x = a ∧ y = b then
      [] :: splitOnSep2 a b rest
    else
      (splitOnSep2 a b (y :: rest)).modifyHead (x :: ·)

/-- `parseMultiAccountRefresh` (auth.ts): split on the `"||"` account
separator, keep the segments whose trimmed form is non-empty, and parse
each with `parseRefreshParts`.  A falsy (empty) input yields no
accounts. -/
def parseMultiAccountRefresh (refresh : Str) : MultiAccountRefreshParts :=
  if refresh = [] then { accounts := [] }
  else
    let accountStrings := (splitOnSep2 '|' '|' refresh).filter fun s => trimChars s ≠ []
    if accountStrings.length = 0 then { accounts := [] }
    else { accounts := accountStrings.map parseRefreshParts }

/-- `formatMultiAccountRefresh` (auth.ts): serialize each account,
filter out blank serializations, and join with `"||"`. -/
def formatMultiAccountRefresh (parts : MultiAccountRefreshParts) : Str :=
  List.intercalate ['|', '|']
    ((parts.accounts.map formatRefreshParts).filter fun s => trimChars s ≠ [])

/-- Well-formed single-account strings: exactly the image of
`formatRefreshParts` on parse results — two `|`-separated segments, or
three with a non-empty third segment. -/
def WellFormedSingle (x : Str) : Prop :=
  (x.splitOn '|').length = 2 ∨
    ((x.splitOn '|').length = 3 ∧ (x.splitOn '|').getD 2 [] ≠ [])

instance (x : Str) : Decidable (WellFormedSingle x) := by
  unfold WellFormedSingle; infer_instance

/-- Well-formed multi-account strings: non-empty, and every account
segment (the tokens between the `"||"` separators, which therefore do
not themselves contain the separator) is non-blank and itself a
well-formed single-account string. -/
def WellFormedMulti (y : Str) : Prop :=
  y ≠ [] ∧ ∀ seg ∈ splitOnSep2 '|' '|' y, trimChars seg ≠ [] ∧ WellFormedSingle seg

instance (y : Str) : Decidable (WellFormedMulti y) := by
  unfold WellFormedMulti; infer_instance

/-! ### Split/join inverses -/

theorem splitOnSep2_ne_nil (a b : Char) (xs : Str) : splitOnSep2 a b xs ≠ [] := by
  induction xs using splitOnSep2.induct a b with
  | case1 => simp [splitOnSep2]
  | case2 x => simp [splitOnSep2]
  | case3 x y rest hab ih => simp [splitOnSep2, hab]
  | case4 x y rest hab ih =>
    simp only [splitOnSep2, if_neg hab]
    cases h : splitOnSep2 a b (y :: rest) with
    | nil => exact absurd h ih
    | cons hd tl => simp

theorem intercalate_modifyHead_cons (sep : Str) (x : Char) (L : List Str) (hL : L ≠ []) :
    List.intercalate sep (L.modifyHead (x :: ·)) = x :: List.intercalate sep L := by
  cases L with
  | nil => exact absurd rfl hL
  | cons h t =>
    cases t with
    | nil => simp [List.intercalate]
    | cons h2 t2 =>
      simp [List.intercalate, List.intersperse]

theorem intercalate_splitOnSep2 (a b : Char) (xs : Str) :
    List.intercalate [a, b] (splitOnSep2 a b xs) = xs := by
  induction xs using splitOnSep2.induct a b with
  | case1 => simp [splitOnSep2, List.intercalate]
  | case2 x => simp [splitOnSep2, List.intercalate]
  | case3 x y rest hab ih =>
    simp only [splitOnSep2, if_pos hab]
    obtain ⟨rfl, rfl⟩ := hab
    cases h : splitOnSep2 x y rest with
    | nil => exact absurd h (splitOnSep2_ne_nil x y rest)
    | cons hd tl =>
      rw [h] at ih
      simp only [List.intercalate, List.intersperse] at ih ⊢
      cases tl <;> simp_all [List.intercalate, List.intersperse]
  | case4 x y rest hab ih =>
    simp only [splitOnSep2, if_neg hab]
    rw [intercalate_modifyHead_cons _ _ _ (splitOnSep2_ne_nil a b (y :: rest)), ih]

theorem orUndefined_getD (s : Str) : (orUndefined s).getD [] = s := by
  unfold orUndefined; split <;> simp_all

theorem format_parse_single (x : Str) (h : WellFormedSingle x) :
    formatRefreshParts (parseRefreshParts x) = x := by
  have hx := List.intercalate_splitOn x '|'
  rcases h with h2 | ⟨h3, hm⟩
  · rcases hs : x.splitOn '|' with _ | ⟨r, _ | ⟨p, _ | ⟨q, tl⟩⟩⟩ <;>
      rw [hs] at h2 <;> simp at h2
    rw [hs] at hx
    simp only [List.intercalate, List.intersperse, List.flatten] at hx
    simp only [parseRefreshParts, hs, formatRefreshParts]
    simp only [List.getD_cons_zero, List.getD_cons_succ, List.getD_nil, orUndefined_getD]
    show (match orUndefined [] with
      | some m => if m = [] then r ++ '|' :: p else (r ++ '|' :: p) ++ '|' :: m
      | none => r ++ '|' :: p) = x
    simp only [orUndefined, if_pos rfl]
    simpa using hx
  · rcases hs : x.splitOn '|' with _ | ⟨r, _ | ⟨p, _ | ⟨m, _ | ⟨w, tl⟩⟩⟩⟩ <;>
      rw [hs] at h3 <;> simp at h3
    rw [hs] at hx hm
    simp only [List.getD_cons_zero, List.getD_cons_succ] at hm
    simp only [List.intercalate, List.intersperse, List.flatten] at hx
    simp only [parseRefreshParts, hs, formatRefreshParts]
    simp only [List.getD_cons_zero, List.getD_cons_succ, List.getD_nil, orUndefined_getD]
    show (match orUndefined m with
      | some mm => if mm = [] then r ++ '|' :: p else (r ++ '|' :: p) ++ '|' :: mm
      | none => r ++ '|' :: p) = x
    rw [show orUndefined m = some m from by simp [orUndefined, hm]]
    simp only [if_neg hm]
    simpa using hx

theorem format_parse_multi (y : Str) (h : WellFormedMulti y) :
    formatMultiAccountRefresh (parseMultiAccountRefresh y) = y := by
  obtain ⟨hy, hsegs⟩ := h
  have hfilter : (splitOnSep2 '|' '|' y).filter (fun s => decide (trimChars s ≠ [])) =
      splitOnSep2 '|' '|' y :=
    List.filter_eq_self.mpr fun s hs => by simpa using (hsegs s hs).1
  have hne := splitOnSep2_ne_nil '|' '|' y
  unfold parseMultiAccountRefresh
  rw [if_neg hy, hfilter]
  rw [if_neg (by simpa [List.length_eq_zero] using hne)]
  unfold formatMultiAccountRefresh
  simp only [List.map_map]
  have hmap : (splitOnSep2 '|' '|' y).map (formatRefreshParts ∘ parseRefreshParts) =
      splitOnSep2 '|' '|' y := by
    have hfp : ∀ s ∈ splitOnSep2 '|' '|' y,
        (formatRefreshParts ∘ parseRefreshParts) s = id s :=
      fun s hs => format_parse_single s (hsegs s hs).2
    rw [List.map_congr_left hfp, List.map_id]
  rw [hmap, hfilter]
  exact intercalate_splitOnSep2 '|' '|' y

end Codec

/-- C2: round-trip of the credential codec.  For every well-formed
single-account refresh string `x`, `formatRefreshParts (parseRefreshParts x) = x`;
and for every well-formed multi-account string `y` (whose account tokens,
being the segments between the `"||"` separators, do not contain the
separator), `formatMultiAccountRefresh (parseMultiAccountRefresh y) = y`. -/
theorem claim2_codec_round_trip :
    (∀ x : Str, Codec.WellFormedSingle x →
      Codec.formatRefreshParts (Codec.parseRefreshParts x) = x) ∧
    (∀ y : Str, Codec.WellFormedMulti y →
      Codec.formatMultiAccountRefresh (Codec.parseMultiAccountRefresh y) = y) :=
  ⟨Codec.format_parse_single, Codec.format_parse_multi⟩

/-- Witness for C2 at the concrete strings `"tok|proj"` and
`"a|p1|m1||b|p2"`. -/
theorem claim2_codec_round_trip_witness :
    (Codec.WellFormedSingle "tok|proj".data ∧
      Codec.formatRefreshParts (Codec.parseRefreshParts "tok|proj".data) = "tok|proj".data) ∧
    (Codec.WellFormedMulti "a|p1|m1||b|p2".data ∧
      Codec.formatMultiAccountRefresh
        (Codec.parseMultiAccountRefresh "a|p1|m1||b|p2".data) = "a|p1|m1||b|p2".data) :=
  ⟨⟨by decide, claim2_codec_round_trip.1 _ (by decide)⟩,
   ⟨by decide, claim2_codec_round_trip.2 _ (by decide)⟩⟩

namespace Storage

/-- `lastSwitchReason` values. -/
inductive SwitchReason
  | rateLimit
  | initial
  | rotation
  deriving DecidableEq, Repr

/-- `AccountTier` (storage.ts): `"free" | "paid"`. -/
inductive AccountTier
  | free
  | paid
  deriving DecidableEq, Repr

/-- Truthiness of an optional JS number: present and non-zero. -/
def natTruthy : Option Nat → Bool
  | some n => n != 0
  | none => false

/-- The keys a `rateLimitResetTimes` object can carry across schema
versions: `claude` (v1-derived/v2/v3), `gemini` (v2 only),
`gemini-flash` and `gemini-pro` (v3).  A key that is absent from the
underlying JS object is `none`. -/
structure RawRateLimits where
  claude : Option Nat
  gemini : Option Nat
  geminiFlash : Option Nat
  geminiPro : Option Nat
  deriving DecidableEq, Repr

/-- `Object.keys(r).length` for a rate-limit object. -/
def RawRateLimits.keyCount (r : RawRateLimits) : Nat :=
  (if r.claude.isSome then 1 else 0) + (if r.gemini.isSome then 1 else 0) +
    (if r.geminiFlash.isSome then 1 else 0) + (if r.geminiPro.isSome then 1 else 0)

/-- An account record as the loosely-typed JS code sees it: the union of
the fields of `AccountMetadataV1`, `AccountMetadataV2` and
`AccountMetadata` (v3), every optional field `none` when absent. -/
structure RawAccount where
  email : Option String
  tier : Option AccountTier
  refreshToken : String
  projectId : Option String
  managedProjectId : Option String
  addedAt : Nat
  lastUsed : Nat
  lastSwitchReason : Option SwitchReason
  isRateLimited : Option Bool
  rateLimitResetTime : Option Nat
  rateLimitResetTimes : Option RawRateLimits
  deriving DecidableEq, Repr

/-- A parsed storage document: `version` is `none` when missing or not a
number, `accounts` is `none` when the field is not an array, and
`activeIndex` is `none` when missing or not an integer number. -/
structure RawDoc where
  version : Option Int
  accounts : Option (List RawAccount)
  activeIndex : Option Int
  deriving DecidableEq, Repr

/-- A document whose `accounts` field is known to be an array, as the
typed migration helpers receive it (their `version` tag is re-attached
by `loadAccounts`). -/
structure ArrayDoc where
  accounts : List RawAccount
  activeIndex : Option Int
  deriving DecidableEq, Repr

/-- Per-account part of `migrateV1ToV2` (storage.ts): when the v1
account is flagged rate-limited and carries a truthy reset time, seed
both the `claude` and the v2 `gemini` keys with it; attach the object
only when it has keys. -/
def migrateV1Account (acc : RawAccount) : RawAccount :=
  let r : RawRateLimits :=
    if acc.isRateLimited = some true ∧ natTruthy acc.rateLimitResetTime then
      { claude := acc.rateLimitResetTime, gemini := acc.rateLimitResetTime
        geminiFlash := none, geminiPro := none }
    else ⟨none, none, none, none⟩
  { email := acc.email
    tier := none
    refreshToken := acc.refreshToken
    projectId := acc.projectId
    managedProjectId := acc.managedProjectId
    addedAt := acc.addedAt
    lastUsed := acc.lastUsed
    lastSwitchReason := acc.lastSwitchReason
    isRateLimited := none
    rateLimitResetTime := none
    rateLimitResetTimes := if 0 < r.keyCount then some r else none }

/-- `migrateV1ToV2` (storage.ts). -/
def migrateV1ToV2 (v1 : ArrayDoc) : ArrayDoc :=
  { accounts := v1.accounts.map migrateV1Account, activeIndex := v1.activeIndex }

/-- Per-account part of `migrateV2ToV3` (storage.ts): copy `claude` when
defined, fan the single v2 `gemini` key out to `gemini-flash` and
`gemini-pro` when defined; attach the object only when it has keys. -/
def migrateV2Account (acc : RawAccount) : RawAccount :=
  let r : RawRateLimits :=
    match acc.rateLimitResetTimes with
    | some old =>
      { claude := old.claude, gemini := none
        geminiFlash := old.gemini, geminiPro := old.gemini }
    | none => ⟨none, none, none, none⟩
  { email := acc.email
    tier := none
    refreshToken := acc.refreshToken
    projectId := acc.projectId
    managedProjectId := acc.managedProjectId
    addedAt := acc.addedAt
    lastUsed := acc.lastUsed
    lastSwitchReason := acc.lastSwitchReason
    isRateLimited := none
    rateLimitResetTime := none
    rateLimitResetTimes := if 0 < r.keyCount then some r else none }

/-- `migrateV2ToV3` (storage.ts). -/
def migrateV2ToV3 (v2 : ArrayDoc) : ArrayDoc :=
  { accounts := v2.accounts.map migrateV2Account, activeIndex := v2.activeIndex }

/-- The `activeIndex` normalization at the end of `loadAccounts`:
a non-integer becomes 0, then an out-of-bounds index is clamped to 0. -/
def normalizeActiveIndex (d : RawDoc) : RawDoc :=
  let ai : Int := match d.activeIndex with | some i => i | none => 0
  let len : Nat := (d.accounts.getD []).length
  let ai2 : Int := if ai < 0 ∨ (len : Int) ≤ ai then 0 else ai
  { d with activeIndex := some ai2 }

/-- The possible outcomes of reading and `JSON.parse`-ing the storage
file, each of which the `try`/`catch` of `loadAccounts` observes:
`missingFile` is the ENOENT path, `readFailure` any other I/O error,
`invalidJson` a `JSON.parse` throw, `nonObjectJson` a parse result on
which the `data.accounts` property access itself throws (e.g. `null`) —
every one of them is caught, logged and turned into `null`. -/
inductive LoadOutcome
  | missingFile
  | readFailure
  | invalidJson
  | nonObjectJson
  | parsed (d : RawDoc)
  deriving DecidableEq, Repr

/-- `loadAccounts` (storage.ts) as a pure function of the file outcome.
The first component is the returned value (`none` = `null`), the second
the document passed to `saveAccounts` when the migration branches
persist the upgraded document (`none` = `saveAccounts` never invoked).
Note the normalization of `activeIndex` happens after the save, so the
persisted document is the un-normalized migration output. -/
def loadAccounts : LoadOutcome → Option RawDoc × Option RawDoc
  | .missingFile => (none, none)
  | .readFailure => (none, none)
  | .invalidJson => (none, none)
  | .nonObjectJson => (none, none)
  | .parsed d =>
    match d.accounts with
    | none => (none, none)
    | some accounts =>
      if d.version = some 1 then
        let m := migrateV2ToV3 (migrateV1ToV2 ⟨accounts, d.activeIndex⟩)
        let s : RawDoc := ⟨some 3, some m.accounts, m.activeIndex⟩
        (some (normalizeActiveIndex s), some s)
      else if d.version = some 2 then
        let m := migrateV2ToV3 ⟨accounts, d.activeIndex⟩
        let s : RawDoc := ⟨some 3, some m.accounts, m.activeIndex⟩
        (some (normalizeActiveIndex s), some s)
      else if d.version = some 3 then
        (some (normalizeActiveIndex d), none)
      else (none, none)

/-- The per-account rate-limit view of a `loadAccounts` result. -/
def loadedRateLimits (o : LoadOutcome) : Option (List (Option RawRateLimits)) :=
  (loadAccounts o).1.map fun s => (s.accounts.getD []).map (·.rateLimitResetTimes)

/-- A concrete account record with the given rate-limit fields, used to
instantiate theorems at explicit inputs. -/
def mkAccount (irl : Option Bool) (rt : Option Nat) (rts : Option RawRateLimits) :
    RawAccount :=
  { email := none, tier := none, refreshToken := "r", projectId := none
    managedProjectId := none, addedAt := 0, lastUsed := 0, lastSwitchReason := none
    isRateLimited := irl, rateLimitResetTime := rt, rateLimitResetTimes := rts }

end Storage

/-- C3 (amended): the migration chain of `loadAccounts`.  A v1 account
flagged rate-limited with a *non-zero* `rateLimitResetTime = T` loads as
a v3 account whose `claude`, `gemini-flash` and `gemini-pro` reset times
all equal `T` (the v2 `gemini` key being gone); a v1 account that is not
flagged rate-limited loads with no `rateLimitResetTimes` object at all;
and a v2 account with `rateLimitResetTimes.gemini = T` and no `claude`
key loads with `gemini-flash = gemini-pro = T` and `claude` still
absent.  (`T = 0` is excluded: the v1 migration tests JS truthiness of
the reset time, so a zero reset time migrates to no object — see the
counterexample.) -/
theorem claim3_migration_chain :
    (∀ (acc : Storage.RawAccount) (ai : Option Int) (T : Nat), T ≠ 0 →
      acc.isRateLimited = some true → acc.rateLimitResetTime = some T →
      Storage.loadedRateLimits (.parsed ⟨some 1, some [acc], ai⟩) =
        some [some ⟨some T, none, some T, some T⟩]) ∧
    (∀ (acc : Storage.RawAccount) (ai : Option Int), acc.isRateLimited ≠ some true →
      Storage.loadedRateLimits (.parsed ⟨some 1, some [acc], ai⟩) = some [none]) ∧
    (∀ (acc : Storage.RawAccount) (ai : Option Int) (T : Nat),
      acc.rateLimitResetTimes = some ⟨none, some T, none, none⟩ →
      Storage.loadedRateLimits (.parsed ⟨some 2, some [acc], ai⟩) =
        some [some ⟨none, none, some T, some T⟩]) := by
  refine ⟨fun acc ai T hT h1 h2 => ?_, fun acc ai h1 => ?_, fun acc ai T h1 => ?_⟩
  · simp [Storage.loadedRateLimits, Storage.loadAccounts, Storage.migrateV1ToV2,
      Storage.migrateV2ToV3, Storage.migrateV1Account, Storage.migrateV2Account,
      Storage.normalizeActiveIndex, Storage.natTruthy, Storage.RawRateLimits.keyCount,
      h1, h2, hT]
  · simp [Storage.loadedRateLimits, Storage.loadAccounts, Storage.migrateV1ToV2,
      Storage.migrateV2ToV3, Storage.migrateV1Account, Storage.migrateV2Account,
      Storage.normalizeActiveIndex, Storage.natTruthy, Storage.RawRateLimits.keyCount,
      h1]
  · simp [Storage.loadedRateLimits, Storage.loadAccounts, Storage.migrateV1ToV2,
      Storage.migrateV2ToV3, Storage.migrateV1Account, Storage.migrateV2Account,
      Storage.normalizeActiveIndex, Storage.natTruthy, Storage.RawRateLimits.keyCount,
      h1]

/-- Counterexample to C3 as stated: a v1 account with
`isRateLimited = true` and `rateLimitResetTime = 0` loads with *no*
`rateLimitResetTimes` object, not with all three family keys equal to 0,
because `migrateV1ToV2` tests JS truthiness of the reset time and `0` is
falsy. -/
theorem claim3_migration_chain_counterexample :
    Storage.loadedRateLimits (.parsed
        ⟨some 1, some [Storage.mkAccount (some true) (some 0) none], some 0⟩) =
      some [none] ∧
    Storage.loadedRateLimits (.parsed
        ⟨some 1, some [Storage.mkAccount (some true) (some 0) none], some 0⟩) ≠
      some [some ⟨some 0, none, some 0, some 0⟩] := by
  constructor <;> decide

/-- Witness for C3 at a concrete v1 document with `T = 5` and a concrete
v2 document with `gemini = 7`. -/
theorem claim3_migration_chain_witness :
    ((5 : Nat) ≠ 0 ∧
      Storage.loadedRateLimits (.parsed
          ⟨some 1, some [Storage.mkAccount (some true) (some 5) none], some 0⟩) =
        some [some ⟨some 5, none, some 5, some 5⟩]) ∧
    Storage.loadedRateLimits (.parsed
        ⟨some 2, some [Storage.mkAccount none none (some ⟨none, some 7, none, none⟩)], some 0⟩) =
      some [some ⟨none, none, some 7, some 7⟩] :=
  ⟨⟨by decide, claim3_migration_chain.1 _ (some 0) 5 (by decide) rfl rfl⟩,
   claim3_migration_chain.2.2 _ (some 0) 7 rfl⟩

/-- C5: `loadAccounts` never throws.  Every abnormal storage-file
outcome — a missing file, unparseable JSON, a document whose `accounts`
field is not an array, or a document whose `version` is not 1, 2 or 3 —
is mapped by the `try`/`catch` and the validation branches to the
returned value `null` ("no prior state"), with no exception escaping
and no write performed. -/
theorem claim5_load_returns_null :
    Storage.loadAccounts .missingFile = (none, none) ∧
    Storage.loadAccounts .invalidJson = (none, none) ∧
    (∀ ver ai : Option Int, Storage.loadAccounts (.parsed ⟨ver, none, ai⟩) = (none, none)) ∧
    (∀ d : Storage.RawDoc, d.version ≠ some 1 → d.version ≠ some 2 → d.version ≠ some 3 →
      Storage.loadAccounts (.parsed d) = (none, none)) := by
  refine ⟨rfl, rfl, fun ver ai => rfl, fun d h1 h2 h3 => ?_⟩
  obtain ⟨ver, accounts, ai⟩ := d
  cases accounts with
  | none => rfl
  | some l => simp_all [Storage.loadAccounts]

/-- Witness for C5 at a concrete non-array-accounts document and a
concrete version-7 document. -/
theorem claim5_load_returns_null_witness :
    Storage.loadAccounts (.parsed ⟨some 5, none, none⟩) = (none, none) ∧
    ((some 7 : Option Int) ≠ some 1 ∧ (some 7 : Option Int) ≠ some 2 ∧
      (some 7 : Option Int) ≠ some 3 ∧
      Storage.loadAccounts (.parsed ⟨some 7, some [], some 0⟩) = (none, none)) :=
  ⟨claim5_load_returns_null.2.2.1 (some 5) none,
   by decide, by decide, by decide,
   claim5_load_returns_null.2.2.2 ⟨some 7, some [], some 0⟩ (by decide) (by decide) (by decide)⟩

/-- C9: loading a valid v3 document (version 3, array accounts,
integer `activeIndex` within bounds) returns it unchanged and performs
no write (the second component — the `saveAccounts` argument — is
`none`); loading a v1 or v2 document persists exactly the upgraded v3
document and returns its normalized form. -/
theorem claim9_v3_round_trip_no_write :
    (∀ (l : List Storage.RawAccount) (i : Int), 0 ≤ i → i < (l.length : Int) →
      Storage.loadAccounts (.parsed ⟨some 3, some l, some i⟩) =
        (some ⟨some 3, some l, some i⟩, none)) ∧
    (∀ (l : List Storage.RawAccount) (ai : Option Int),
      Storage.loadAccounts (.parsed ⟨some 1, some l, ai⟩) =
        (some (Storage.normalizeActiveIndex
            ⟨some 3, some (Storage.migrateV2ToV3 (Storage.migrateV1ToV2 ⟨l, ai⟩)).accounts,
              (Storage.migrateV2ToV3 (Storage.migrateV1ToV2 ⟨l, ai⟩)).activeIndex⟩),
          some ⟨some 3, some (Storage.migrateV2ToV3 (Storage.migrateV1ToV2 ⟨l, ai⟩)).accounts,
            (Storage.migrateV2ToV3 (Storage.migrateV1ToV2 ⟨l, ai⟩)).activeIndex⟩)) ∧
    (∀ (l : List Storage.RawAccount) (ai : Option Int),
      Storage.loadAccounts (.parsed ⟨some 2, some l, ai⟩) =
        (some (Storage.normalizeActiveIndex
            ⟨some 3, some (Storage.migrateV2ToV3 ⟨l, ai⟩).accounts,
              (Storage.migrateV2ToV3 ⟨l, ai⟩).activeIndex⟩),
          some ⟨some 3, some (Storage.migrateV2ToV3 ⟨l, ai⟩).accounts,
            (Storage.migrateV2ToV3 ⟨l, ai⟩).activeIndex⟩)) := by
  refine ⟨fun l i h0 hlen => ?_, fun l ai => rfl, fun l ai => rfl⟩
  simp only [Storage.loadAccounts]
  norm_num
  simp only [Storage.normalizeActiveIndex, Option.getD_some]
  rw [if_neg (by omega)]

/-- Witness for C9 at a concrete one-account v3 document. -/
theorem claim9_v3_round_trip_no_write_witness :
    ((0 : Int) ≤ 0 ∧
      (0 : Int) < (([Storage.mkAccount none none none] : List Storage.RawAccount).length : Int)) ∧
    Storage.loadAccounts (.parsed ⟨some 3, some [Storage.mkAccount none none none], some 0⟩) =
      (some ⟨some 3, some [Storage.mkAccount none none none], some 0⟩, none) :=
  ⟨⟨by decide, by decide⟩,
   claim9_v3_round_trip_no_write.1 _ 0 (by decide) (by decide)⟩

namespace Accounts

open Storage (AccountTier SwitchReason)

/-- The model families (`ModelFamily`, storage.ts). -/
inductive ModelFamily
  | claude
  | geminiFlash
  | geminiPro
  deriving DecidableEq, Repr

/-- Per-family rate-limit reset times (`RateLimitState`, storage.ts):
an absent key means "not rate-limited for that family". -/
structure RateLimitState where
  claude : Option Nat
  geminiFlash : Option Nat
  geminiPro : Option Nat
  deriving DecidableEq, Repr

/-- Key lookup `resetTimes[family]`. -/
def RateLimitState.get : RateLimitState → ModelFamily → Option Nat
  | r, .claude => r.claude
  | r, .geminiFlash => r.geminiFlash
  | r, .geminiPro => r.geminiPro

/-- Key assignment `resetTimes[family] = t`. -/
def RateLimitState.set (r : RateLimitState) : ModelFamily → Nat → RateLimitState
  | .claude, t => { r with claude := some t }
  | .geminiFlash, t => { r with geminiFlash := some t }
  | .geminiPro, t => { r with geminiPro := some t }

/-- `ManagedAccount` (accounts.ts). -/
structure ManagedAccount where
  index : Nat
  parts : Codec.RefreshParts
  access : Option Str
  expires : Option Nat
  rateLimitResetTimes : RateLimitState
  lastUsed : Nat
  email : Option String
  tier : Option AccountTier
  lastSwitchReason : Option SwitchReason
  deriving DecidableEq, Repr

/-- `isRateLimitedForFamily` (accounts.ts): a reset time is present and
still in the future. -/
def isRateLimitedForFamily (now : Nat) (account : ManagedAccount)
    (family : ModelFamily) : Bool :=
  match account.rateLimitResetTimes.get family with
  | some resetTime => now < resetTime
  | none => false

/-- One step of `clearExpiredRateLimits`: a reset time whose moment has
arrived (`now >= resetTime`) is deleted, a future one is kept. -/
def clearEntry (now : Nat) : Option Nat → Option Nat
  | some t => if t ≤ now then none else some t
  | none => none

/-- `clearExpiredRateLimits` (accounts.ts): delete, independently for
each of the three families, every reset time that is not in the future
any more. -/
def clearExpiredRateLimits (now : Nat) (account : ManagedAccount) : ManagedAccount :=
  { account with rateLimitResetTimes :=
      { claude := clearEntry now account.rateLimitResetTimes.claude
        geminiFlash := clearEntry now account.rateLimitResetTimes.geminiFlash
        geminiPro := clearEntry now account.rateLimitResetTimes.geminiPro } }

/-- The mutable state of an `AccountManager`: the dense account list,
the round-robin cursor `currentIndex` and the current-account pointer
`currentAccountIndex` (which the class initializes to `-1`, hence an
`Int`). -/
structure AccountManagerState where
  accounts : List ManagedAccount
  currentIndex : Nat
  currentAccountIndex : Int
  deriving DecidableEq, Repr

/-- `getCurrentAccount` (accounts.ts). -/
def getCurrentAccount (s : AccountManagerState) : Option ManagedAccount :=
  if 0 ≤ s.currentAccountIndex ∧ s.currentAccountIndex < (s.accounts.length : Int) then
    s.accounts[s.currentAccountIndex.toNat]?
  else none

/-- `getNextForFamily` (accounts.ts): filter out accounts rate-limited
for the family, restrict to paid accounts when any are available, and
pick round-robin with the cursor modulo the pool size.  The selected
account's `lastUsed` mutation is written back through its `index` field
(the JS code mutates the shared object; the manager maintains
`index` = array position). -/
def getNextForFamily (now : Nat) (family : ModelFamily) (s : AccountManagerState) :
    Option ManagedAccount × AccountManagerState :=
  let available := s.accounts.filter fun a => !isRateLimitedForFamily now a family
  if available.length = 0 then (none, s)
  else
    let paidAvailable := available.filter fun a => a.tier = some AccountTier.paid
    let pool := if 0 < paidAvailable.length then paidAvailable else available
    match pool[s.currentIndex % pool.length]? with
    | none => (none, s)
    | some account =>
      let updated := { account with lastUsed := now }
      (some updated,
        { accounts := s.accounts.set account.index updated
          currentIndex := s.currentIndex + 1
          currentAccountIndex := s.currentAccountIndex })

/-- `getCurrentOrNextForFamily` (accounts.ts): clear expired rate
limits everywhere, stay on the current account when it is usable and no
strictly better tier is available, otherwise delegate to
`getNextForFamily` and move the current-account pointer to the
selection. -/
def getCurrentOrNextForFamily (now : Nat) (family : ModelFamily)
    (s : AccountManagerState) : Option ManagedAccount × AccountManagerState :=
  let s1 : AccountManagerState :=
    { s with accounts := s.accounts.map (clearExpiredRateLimits now) }
  let fallThrough : Option ManagedAccount × AccountManagerState :=
    let next := getNextForFamily now family s1
    match next.1 with
    | some a => (some a, { next.2 with currentAccountIndex := (a.index : Int) })
    | none => (none, next.2)
  match getCurrentAccount s1 with
  | some current =>
    if !isRateLimitedForFamily now current family then
      let betterTierAvailable :=
        decide (current.tier ≠ some AccountTier.paid) &&
          s1.accounts.any fun a =>
            decide (a.tier = some AccountTier.paid) && !isRateLimitedForFamily now a family
      if !betterTierAvailable then
        let updated := { current with lastUsed := now }
        (some updated,
          { s1 with accounts := s1.accounts.set s1.currentAccountIndex.toNat updated })
      else fallThrough
    else fallThrough
  | none => fallThrough

/-- `markRateLimited(account, retryAfterMs, family)` (accounts.ts): set
`account.rateLimitResetTimes[family] = Date.now() + retryAfterMs`.  The
mutated shared object is identified by its position `pos` in the
list. -/
def markRateLimited (now retryAfterMs : Nat) (pos : Nat) (family : ModelFamily)
    (s : AccountManagerState) : AccountManagerState :=
  let touch : ManagedAccount → ManagedAccount := fun a =>
    { a with rateLimitResetTimes := a.rateLimitResetTimes.set family (now + retryAfterMs) }
  { s with accounts := s.accounts.modify touch pos }

theorem RateLimitState.get_set_self (r : RateLimitState) (f : ModelFamily) (t : Nat) :
    (r.set f t).get f = some t := by
  cases f <;> rfl

theorem RateLimitState.get_set_ne (r : RateLimitState) (f g : ModelFamily) (t : Nat)
    (h : g ≠ f) : (r.set f t).get g = r.get g := by
  cases f <;> cases g <;> first | rfl | exact absurd rfl h

theorem clear_index (now : Nat) (a : ManagedAccount) :
    (clearExpiredRateLimits now a).index = a.index := rfl

theorem clear_tier (now : Nat) (a : ManagedAccount) :
    (clearExpiredRateLimits now a).tier = a.tier := rfl

theorem isRateLimited_clear (now : Nat) (a : ManagedAccount) (f : ModelFamily) :
    isRateLimitedForFamily now (clearExpiredRateLimits now a) f =
      isRateLimitedForFamily now a f := by
  obtain ⟨i, p, ac, ex, ⟨oc, og, op⟩, lu, em, ti, lsr⟩ := a
  cases f <;>
    simp only [clearExpiredRateLimits, isRateLimitedForFamily, RateLimitState.get] <;>
    [rcases oc with _ | t; rcases og with _ | t; rcases op with _ | t] <;>
    simp [clearEntry] <;> split_ifs <;> simp <;> omega

end Accounts

/-- A concrete managed account, for instantiating theorems. -/
def Accounts.mkManaged (i : Nat) (tier : Option Storage.AccountTier)
    (rl : Accounts.RateLimitState) : Accounts.ManagedAccount :=
  { index := i, parts := ⟨[], none, none⟩, access := none, expires := none
    rateLimitResetTimes := rl, lastUsed := 0, email := none, tier := tier
    lastSwitchReason := none }

theorem Accounts.isRateLimited_set_self (now retry : Nat) (a : Accounts.ManagedAccount)
    (f : Accounts.ModelFamily) :
    Accounts.isRateLimitedForFamily now
      { a with rateLimitResetTimes := a.rateLimitResetTimes.set f (now + retry) } f =
    decide (0 < retry) := by
  simp only [Accounts.isRateLimitedForFamily, Accounts.RateLimitState.get_set_self]
  exact decide_eq_decide.mpr (by omega)

/-- C1: sticky but tier-aware selection.
(1) With accounts `[free A (current), paid B]`, neither rate-limited for
the family, `getCurrentOrNextForFamily` returns the paid `B` (with its
`lastUsed` stamped), not the current free `A`.
(2) With the current account 0 paid and not rate-limited,
the call returns account 0 (stickiness) and the resulting state again
has account 0 current with only expiry-clearing and `lastUsed` changed,
so repeated calls keep returning account 0.
(3) After account 0 is marked rate-limited for the family with a
positive `retryAfterMs`, the call returns account 1 and moves the
current pointer to 1.
(4) With account 1 current, paid and not rate-limited, the call keeps
returning account 1. -/
theorem claim1_selection_sticky_tier_aware (f : Accounts.ModelFamily) :
    (∀ (A B : Accounts.ManagedAccount) (ci now : Nat),
      A.tier = some .free → B.tier = some .paid →
      Accounts.isRateLimitedForFamily now A f = false →
      Accounts.isRateLimitedForFamily now B f = false →
      (Accounts.getCurrentOrNextForFamily now f ⟨[A, B], ci, 0⟩).1 =
        some { Accounts.clearExpiredRateLimits now B with lastUsed := now }) ∧
    (∀ (P0 P1 : Accounts.ManagedAccount) (ci now : Nat),
      P0.tier = some .paid →
      Accounts.isRateLimitedForFamily now P0 f = false →
      Accounts.getCurrentOrNextForFamily now f ⟨[P0, P1], ci, 0⟩ =
        (some { Accounts.clearExpiredRateLimits now P0 with lastUsed := now },
          ⟨[{ Accounts.clearExpiredRateLimits now P0 with lastUsed := now },
            Accounts.clearExpiredRateLimits now P1], ci, 0⟩)) ∧
    (∀ (P0 P1 : Accounts.ManagedAccount) (ci now retry : Nat),
      0 < retry → P1.index = 1 → P1.tier = some .paid →
      Accounts.isRateLimitedForFamily now P1 f = false →
      ((Accounts.getCurrentOrNextForFamily now f
          (Accounts.markRateLimited now retry 0 f ⟨[P0, P1], ci, 0⟩)).1.map (·.index) =
        some 1 ∧
       (Accounts.getCurrentOrNextForFamily now f
          (Accounts.markRateLimited now retry 0 f ⟨[P0, P1], ci, 0⟩)).2.currentAccountIndex =
        1)) ∧
    (∀ (P0 P1 : Accounts.ManagedAccount) (ci now : Nat),
      P1.index = 1 → P1.tier = some .paid →
      Accounts.isRateLimitedForFamily now P1 f = false →
      (Accounts.getCurrentOrNextForFamily now f ⟨[P0, P1], ci, 1⟩).1.map (·.index) =
        some 1) := by
  refine ⟨fun A B ci now htA htB hA hB => ?_,
          fun P0 P1 ci now ht h0 => ?_,
          fun P0 P1 ci now retry hr h1 ht hP1 => ?_,
          fun P0 P1 ci now h1 ht hP1 => ?_⟩
  · simp [Accounts.getCurrentOrNextForFamily, Accounts.getNextForFamily,
      Accounts.getCurrentAccount, Accounts.isRateLimited_clear, Accounts.clear_tier,
      Accounts.clear_index, Nat.mod_one, hA, hB, htA, htB]
  · simp [Accounts.getCurrentOrNextForFamily, Accounts.getNextForFamily,
      Accounts.getCurrentAccount, Accounts.isRateLimited_clear, Accounts.clear_tier,
      Accounts.clear_index, h0, ht]
  · constructor <;>
      simp [Accounts.getCurrentOrNextForFamily, Accounts.getNextForFamily,
        Accounts.getCurrentAccount, Accounts.markRateLimited, List.modify,
        Accounts.isRateLimited_clear, Accounts.clear_tier, Accounts.clear_index,
        Accounts.isRateLimited_set_self, Nat.mod_one, h1, ht, hP1, hr]
  · simp [Accounts.getCurrentOrNextForFamily, Accounts.getNextForFamily,
      Accounts.getCurrentAccount, Accounts.isRateLimited_clear, Accounts.clear_tier,
      Accounts.clear_index, h1, ht, hP1]

/-- Witness for C1 at concrete accounts (free index 0, paid index 1,
and two paid accounts), family `claude`, `now = 100`, `retry = 50`. -/
theorem claim1_selection_sticky_tier_aware_witness :
    ((Accounts.mkManaged 0 (some .free) ⟨none, none, none⟩).tier = some .free ∧
      (Accounts.getCurrentOrNextForFamily 100 .claude
          ⟨[Accounts.mkManaged 0 (some .free) ⟨none, none, none⟩,
            Accounts.mkManaged 1 (some .paid) ⟨none, none, none⟩], 0, 0⟩).1 =
        some { Accounts.clearExpiredRateLimits 100
            (Accounts.mkManaged 1 (some .paid) ⟨none, none, none⟩) with lastUsed := 100 }) ∧
    ((0 : Nat) < 50 ∧
      (Accounts.getCurrentOrNextForFamily 100 .claude
          (Accounts.markRateLimited 100 50 0 .claude
            ⟨[Accounts.mkManaged 0 (some .paid) ⟨none, none, none⟩,
              Accounts.mkManaged 1 (some .paid) ⟨none, none, none⟩], 0, 0⟩)).1.map (·.index) =
        some 1) ∧
    (Accounts.getCurrentOrNextForFamily 100 .claude
        ⟨[Accounts.mkManaged 0 (some .paid) ⟨none, none, none⟩,
          Accounts.mkManaged 1 (some .paid) ⟨none, none, none⟩], 0, 1⟩).1.map (·.index) =
      some 1 :=
  ⟨⟨rfl, (claim1_selection_sticky_tier_aware .claude).1
      (Accounts.mkManaged 0 (some .free) ⟨none, none, none⟩)
      (Accounts.mkManaged 1 (some .paid) ⟨none, none, none⟩) 0 100
      (by decide) (by decide) (by decide) (by decide)⟩,
   ⟨by decide,
    ((claim1_selection_sticky_tier_aware .claude).2.2.1
      (Accounts.mkManaged 0 (some .paid) ⟨none, none, none⟩)
      (Accounts.mkManaged 1 (some .paid) ⟨none, none, none⟩) 0 100 50
      (by decide) (by decide) (by decide) (by decide)).1⟩,
   (claim1_selection_sticky_tier_aware .claude).2.2.2
      (Accounts.mkManaged 0 (some .paid) ⟨none, none, none⟩)
      (Accounts.mkManaged 1 (some .paid) ⟨none, none, none⟩) 0 100
      (by decide) (by decide) (by decide)⟩

/-- C6: `markRateLimited` is a frame-respecting per-family update: the
marked account's entry for the given family becomes `now + retryAfterMs`,
its entries for every other family are unchanged — so its
rate-limited status for every other family, at every time, is
unchanged — and every other account in the manager is untouched. -/
theorem claim6_mark_rate_limited_frame (s : Accounts.AccountManagerState)
    (pos now retry : Nat) (f : Accounts.ModelFamily) (a : Accounts.ManagedAccount)
    (ha : s.accounts[pos]? = some a) :
    ∃ a', (Accounts.markRateLimited now retry pos f s).accounts[pos]? = some a' ∧
      a'.rateLimitResetTimes.get f = some (now + retry) ∧
      (∀ g, g ≠ f → a'.rateLimitResetTimes.get g = a.rateLimitResetTimes.get g) ∧
      (∀ t g, g ≠ f →
        Accounts.isRateLimitedForFamily t a' g = Accounts.isRateLimitedForFamily t a g) ∧
      (∀ j, j ≠ pos →
        (Accounts.markRateLimited now retry pos f s).accounts[j]? = s.accounts[j]?) := by
  refine ⟨{ a with rateLimitResetTimes := a.rateLimitResetTimes.set f (now + retry) },
    ?_, ?_, ?_, ?_, ?_⟩
  · simp [Accounts.markRateLimited, List.getElem?_modify, ha]
  · exact Accounts.RateLimitState.get_set_self _ _ _
  · intro g hg
    exact Accounts.RateLimitState.get_set_ne _ _ _ _ hg
  · intro t g hg
    simp only [Accounts.isRateLimitedForFamily,
      Accounts.RateLimitState.get_set_ne _ _ _ _ hg]
  · intro j hj
    simp [Accounts.markRateLimited, List.getElem?_modify, Ne.symm hj]

/-- Witness for C6 at a concrete single-account manager, `now = 10`,
`retry = 5`, family `claude`. -/
theorem claim6_mark_rate_limited_frame_witness :
    ((⟨[Accounts.mkManaged 0 none ⟨none, some 3, none⟩], 0, 0⟩ :
        Accounts.AccountManagerState).accounts[0]? =
      some (Accounts.mkManaged 0 none ⟨none, some 3, none⟩)) ∧
    ∃ a', (Accounts.markRateLimited 10 5 0 .claude
        ⟨[Accounts.mkManaged 0 none ⟨none, some 3, none⟩], 0, 0⟩).accounts[0]? = some a' ∧
      a'.rateLimitResetTimes.get .claude = some (10 + 5) ∧
      (∀ g, g ≠ Accounts.ModelFamily.claude →
        a'.rateLimitResetTimes.get g =
          (Accounts.mkManaged 0 none ⟨none, some 3, none⟩).rateLimitResetTimes.get g) ∧
      (∀ t g, g ≠ Accounts.ModelFamily.claude →
        Accounts.isRateLimitedForFamily t a' g =
          Accounts.isRateLimitedForFamily t (Accounts.mkManaged 0 none ⟨none, some 3, none⟩) g) ∧
      (∀ j, j ≠ 0 →
        (Accounts.markRateLimited 10 5 0 .claude
          ⟨[Accounts.mkManaged 0 none ⟨none, some 3, none⟩], 0, 0⟩).accounts[j]? =
        (⟨[Accounts.mkManaged 0 none ⟨none, some 3, none⟩], 0, 0⟩ :
          Accounts.AccountManagerState).accounts[j]?) :=
  ⟨rfl, claim6_mark_rate_limited_frame _ 0 10 5 .claude _ rfl⟩

namespace Dispatch

/-- `RATE_LIMIT_BACKOFF_BASE_MS` (fetch wrapper). -/
def rateLimitBackoffBaseMs : Nat := 1000

/-- `RATE_LIMIT_BACKOFF_MAX_MS` (fetch wrapper): one hour. -/
def rateLimitBackoffMaxMs : Nat := 60 * 60 * 1000

/-- `computeExponentialBackoffMs` (fetch wrapper).  The attempt counter
is an integer (`Math.floor` is the identity on it); `Math.max(0, ...)`
and the inner `Math.floor` are identities on the natural product. -/
def computeExponentialBackoffMs (attempt : Int)
    (baseMs : Nat := rateLimitBackoffBaseMs) (maxMs : Nat := rateLimitBackoffMaxMs) : Nat :=
  let safeAttempt : Int := max 1 attempt
  let multiplier : Nat := 2 ^ (safeAttempt - 1).toNat
  min maxMs (max 0 (baseMs * multiplier))

end Dispatch

/-- C10: with the default base (1000 ms) and cap (3600000 ms),
`computeExponentialBackoffMs a` equals
`min 3600000 (1000 * 2 ^ (max 1 a - 1))`; consequently the delay is
non-negative, never exceeds one hour, and is nondecreasing in the
attempt number. -/
theorem claim10_backoff_formula :
    (∀ a : Int, Dispatch.computeExponentialBackoffMs a =
      min 3600000 (1000 * 2 ^ (max 1 a - 1).toNat)) ∧
    (∀ a : Int, 0 ≤ Dispatch.computeExponentialBackoffMs a) ∧
    (∀ a : Int, Dispatch.computeExponentialBackoffMs a ≤ 3600000) ∧
    (∀ a b : Int, a ≤ b →
      Dispatch.computeExponentialBackoffMs a ≤ Dispatch.computeExponentialBackoffMs b) := by
  refine ⟨fun a => ?_, fun a => Nat.zero_le _, fun a => ?_, fun a b hab => ?_⟩
  · simp [Dispatch.computeExponentialBackoffMs, Dispatch.rateLimitBackoffBaseMs,
      Dispatch.rateLimitBackoffMaxMs]
  · exact Nat.min_le_left _ _
  · simp only [Dispatch.computeExponentialBackoffMs, Nat.zero_max]
    refine min_le_min (Nat.le_refl _) ?_
    refine Nat.mul_le_mul_left _ (Nat.pow_le_pow_right (by omega) ?_)
    exact Int.toNat_le_toNat (by omega)

/-- Witness for C10's monotonicity at `a = 3 ≤ b = 7`. -/
theorem claim10_backoff_formula_witness :
    (3 : Int) ≤ 7 ∧
      Dispatch.computeExponentialBackoffMs 3 ≤ Dispatch.computeExponentialBackoffMs 7 :=
  ⟨by decide, claim10_backoff_formula.2.2.2 3 7 (by decide)⟩

namespace Token

/-- Truthiness of an optional JS string value (String-typed). -/
def optStrTruthy : Option String → Bool
  | some s => s ≠ ""
  | none => false

/-- `OAuthAuthDetails` (types.ts): the `type: "oauth"` tag is constant
and omitted. -/
structure OAuthAuthDetails where
  refresh : Str
  access : Str
  expires : Nat
  deriving DecidableEq, Repr

/-- The structured form of `payload.error` when it is an object. -/
structure OAuthErrorObject where
  code : Option String
  status : Option String
  message : Option String
  deriving DecidableEq, Repr

/-- `payload.error`: either a string code or a structured object. -/
inductive OAuthErrorField
  | str (s : String)
  | obj (o : OAuthErrorObject)
  deriving DecidableEq, Repr

/-- The parsed shape of an OAuth error payload (`OAuthErrorPayload`,
token.ts). -/
structure OAuthErrorPayload where
  error : Option OAuthErrorField
  errorDescription : Option String
  deriving DecidableEq, Repr

/-- What `JSON.parse` on the error body text can yield, as
`parseOAuthErrorPayload` distinguishes the cases: no text at all
(reading the body threw), a `JSON.parse` throw, a parse result that is
not an object, or a payload object. -/
inductive ErrorBody
  | noText
  | unparseable (text : String)
  | nonObject (text : String)
  | obj (p : OAuthErrorPayload)
  deriving DecidableEq, Repr

/-- `parseOAuthErrorPayload` (token.ts): extract `(code, description)`,
tolerating a string error code, a structured error object (whose
`status` outranks `code`), or raw text. -/
def parseOAuthErrorPayload : ErrorBody → Option String × Option String
  | .noText => (none, none)
  | .unparseable t => (none, some t)
  | .nonObject t => (none, some t)
  | .obj p =>
    let code : Option String :=
      match p.error with
      | some (.str s) => some s
      | some (.obj o) => match o.status with | some st => some st | none => o.code
      | none => none
    let earlyMessage : Option String :=
      match p.error with
      | some (.obj o) =>
        if !optStrTruthy p.errorDescription && optStrTruthy o.message then o.message
        else none
      | _ => none
    match earlyMessage with
    | some m => (code, some m)
    | none =>
      if optStrTruthy p.errorDescription then (code, p.errorDescription)
      else
        match p.error with
        | some (.obj o) => if optStrTruthy o.message then (code, o.message) else (code, none)
        | _ => (code, none)

/-- `expires_in`, `access_token`, `refresh_token` of a successful token
endpoint response. -/
structure TokenPayload where
  accessToken : Str
  expiresIn : Nat
  refreshToken : Option Str
  deriving DecidableEq, Repr

/-- The token endpoint interaction outcomes `refreshAccessToken`
branches on: a thrown fetch, an HTTP failure with its error body, or a
parsed success payload. -/
inductive TokenResponse
  | networkError
  | httpFailure (status : Nat) (body : ErrorBody)
  | success (payload : TokenPayload)
  deriving DecidableEq, Repr

/-- The observable effects of one `refreshAccessToken` call (token.ts):
its return value, the credential written through `client.auth.set` (if
any), the key passed to `invalidateProjectContextCache` (if called) and
the snapshot given to `storeCachedAuth` (if called). -/
structure RefreshEffects where
  result : Option OAuthAuthDetails
  credentialWritten : Option OAuthAuthDetails
  projectCacheInvalidated : Option Str
  authCacheStored : Option OAuthAuthDetails
  deriving DecidableEq, Repr

/-- `refreshAccessToken` (token.ts) as a pure function of the endpoint
outcome.  An empty parsed refresh token or a missing client secret
aborts with no effects; an HTTP failure whose parsed code is
`invalid_grant` invalidates the project-context cache entry for the old
refresh string and writes back a cleared credential (empty refresh
token, project-id segments preserved); any other failure has no
effects; success returns the updated credential — keeping the original
refresh token unless the server rotated it — stores it in the auth
cache and invalidates the stale project-context entry, but writes no
credential (the caller merges it into the multi-account view). -/
def refreshAccessToken (auth : OAuthAuthDetails) (resp : TokenResponse) (now : Nat)
    (clientSecretPresent : Bool) : RefreshEffects :=
  let parts := Codec.parseRefreshParts auth.refresh
  if parts.refreshToken = [] then ⟨none, none, none, none⟩
  else if !clientSecretPresent then ⟨none, none, none, none⟩
  else
    match resp with
    | .networkError => ⟨none, none, none, none⟩
    | .httpFailure _ body =>
      if (parseOAuthErrorPayload body).1 = some "invalid_grant" then
        let clearedAuth : OAuthAuthDetails :=
          { refresh := Codec.formatRefreshParts
              ⟨[], parts.projectId, parts.managedProjectId⟩
            access := [], expires := 0 }
        ⟨none, some clearedAuth, some auth.refresh, none⟩
      else ⟨none, none, none, none⟩
    | .success payload =>
      let refreshedParts : Codec.RefreshParts :=
        { refreshToken := payload.refreshToken.getD parts.refreshToken
          projectId := parts.projectId
          managedProjectId := parts.managedProjectId }
      let updatedAuth : OAuthAuthDetails :=
        { refresh := Codec.formatRefreshParts refreshedParts
          access := payload.accessToken
          expires := now + payload.expiresIn * 1000 }
      ⟨some updatedAuth, none, some auth.refresh, some updatedAuth⟩

end Token

/-- C7: token refresh failure handling.  (1) An HTTP failure whose
parsed error code is `invalid_grant` writes back a cleared credential
(empty refresh token, `projectId`/`managedProjectId` segments
preserved), invalidates the project-context cache entry keyed by the
old refresh string, and returns no credential.  (2) A network error and
(3) any HTTP failure with a different (or no) error code return no
credential and write nothing.  (4) On success the returned credential's
refresh parts keep the original refresh token unless the server
supplied a rotated `refresh_token`, which replaces it. -/
theorem claim7_refresh_failure_handling :
    (∀ (auth : Token.OAuthAuthDetails) (status : Nat) (body : Token.ErrorBody) (now : Nat),
      (Codec.parseRefreshParts auth.refresh).refreshToken ≠ [] →
      (Token.parseOAuthErrorPayload body).1 = some "invalid_grant" →
      Token.refreshAccessToken auth (.httpFailure status body) now true =
        { result := none
          credentialWritten := some
            { refresh :=
                Codec.formatRefreshParts ⟨[], (Codec.parseRefreshParts auth.refresh).projectId,
                  (Codec.parseRefreshParts auth.refresh).managedProjectId⟩
              access := [], expires := 0 }
          projectCacheInvalidated := some auth.refresh
          authCacheStored := none }) ∧
    (∀ (auth : Token.OAuthAuthDetails) (now : Nat),
      Token.refreshAccessToken auth .networkError now true = ⟨none, none, none, none⟩) ∧
    (∀ (auth : Token.OAuthAuthDetails) (status : Nat) (body : Token.ErrorBody) (now : Nat),
      (Token.parseOAuthErrorPayload body).1 ≠ some "invalid_grant" →
      Token.refreshAccessToken auth (.httpFailure status body) now true =
        ⟨none, none, none, none⟩) ∧
    (∀ (auth : Token.OAuthAuthDetails) (payload : Token.TokenPayload) (now : Nat),
      (Codec.parseRefreshParts auth.refresh).refreshToken ≠ [] →
      (Token.refreshAccessToken auth (.success payload) now true).result =
        some { refresh :=
                 (Codec.formatRefreshParts
                   ⟨payload.refreshToken.getD (Codec.parseRefreshParts auth.refresh).refreshToken,
                     (Codec.parseRefreshParts auth.refresh).projectId,
                     (Codec.parseRefreshParts auth.refresh).managedProjectId⟩)
               access := payload.accessToken
               expires := now + payload.expiresIn * 1000 }) := by
  refine ⟨fun auth status body now h1 h2 => ?_, fun auth now => ?_,
          fun auth status body now h2 => ?_, fun auth payload now h1 => ?_⟩
  · simp [Token.refreshAccessToken, h1, h2]
  · simp [Token.refreshAccessToken]
  · simp [Token.refreshAccessToken, h2]
  · simp [Token.refreshAccessToken, h1]

/-- Witness for C7 at a concrete credential `"rt|pid|mpid"`, a concrete
`invalid_grant` error body, a distinct error body, and a rotated
success payload. -/
theorem claim7_refresh_failure_handling_witness :
    ((Codec.parseRefreshParts "rt|pid|mpid".data).refreshToken ≠ [] ∧
      (Token.parseOAuthErrorPayload
        (.obj ⟨some (.str "invalid_grant"), none⟩)).1 = some "invalid_grant" ∧
      Token.refreshAccessToken ⟨"rt|pid|mpid".data, [], 0⟩
          (.httpFailure 400 (.obj ⟨some (.str "invalid_grant"), none⟩)) 0 true =
        { result := none
          credentialWritten := some
            { refresh :=
                Codec.formatRefreshParts ⟨[],
                  (Codec.parseRefreshParts "rt|pid|mpid".data).projectId,
                  (Codec.parseRefreshParts "rt|pid|mpid".data).managedProjectId⟩
              access := [], expires := 0 }
          projectCacheInvalidated := some "rt|pid|mpid".data
          authCacheStored := none }) ∧
    ((Token.parseOAuthErrorPayload (.obj ⟨some (.str "server_error"), none⟩)).1 ≠
        some "invalid_grant" ∧
      Token.refreshAccessToken ⟨"rt|pid|mpid".data, [], 0⟩
          (.httpFailure 500 (.obj ⟨some (.str "server_error"), none⟩)) 0 true =
        ⟨none, none, none, none⟩) ∧
    (Token.refreshAccessToken ⟨"rt|pid|mpid".data, [], 0⟩
        (.success ⟨"at".data, 60, some "rt2".data⟩) 7 true).result =
      some { refresh :=
               (Codec.formatRefreshParts
                 ⟨(some "rt2".data).getD (Codec.parseRefreshParts "rt|pid|mpid".data).refreshToken,
                   (Codec.parseRefreshParts "rt|pid|mpid".data).projectId,
                   (Codec.parseRefreshParts "rt|pid|mpid".data).managedProjectId⟩)
             access := "at".data
             expires := 7 + 60 * 1000 } := by
  exact ⟨⟨by decide, by decide,
    claim7_refresh_failure_handling.1 ⟨"rt|pid|mpid".data, [], 0⟩ 400
      (.obj ⟨some (.str "invalid_grant"), none⟩) 0 (by decide) (by decide)⟩,
   ⟨by decide,
    claim7_refresh_failure_handling.2.2.1 ⟨"rt|pid|mpid".data, [], 0⟩ 500
      (.obj ⟨some (.str "server_error"), none⟩) 0 (by decide)⟩,
   claim7_refresh_failure_handling.2.2.2 ⟨"rt|pid|mpid".data, [], 0⟩
      ⟨"at".data, 60, some "rt2".data⟩ 7 (by decide)⟩

namespace Claude

/-- The string form of a model family, as cache.ts uses it in the
signature-cache key. -/
def familyKeyPart : Accounts.ModelFamily → String
  | .claude => "claude"
  | .geminiFlash => "gemini-flash"
  | .geminiPro => "gemini-pro"

/-- `normalizeThoughtText` (cache.ts): `text.trim()`, rendered over the
character list. -/
def normalizeThoughtText (s : String) : String :=
  String.mk (Codec.trimChars s.data)

/-- `getSignatureKey` (cache.ts): the key material
`family ++ ":" ++ sessionId ++ ":" ++ trimmed thought text`.  (The JS
code SHA-256-hashes this string; the hash is pure key derivation, so the
cache is modelled on the pre-hash key.) -/
def sigKey (family : Accounts.ModelFamily) (sessionId thoughtText : String) : String :=
  familyKeyPart family ++ ":" ++ sessionId ++ ":" ++ normalizeThoughtText thoughtText

/-- The thinking-signature cache (cache.ts): a map from key material to
signature. -/
def SigCache := String → Option String

/-- `cacheSignature` (cache.ts). -/
def cacheSignature (family : Accounts.ModelFamily) (sessionId thoughtText signature : String)
    (c : SigCache) : SigCache :=
  fun k => if k = sigKey family sessionId thoughtText then some signature else c k

/-- `getCachedSignature` (cache.ts). -/
def getCachedSignature (family : Accounts.ModelFamily) (sessionId thoughtText : String)
    (c : SigCache) : Option String :=
  c (sigKey family sessionId thoughtText)

/-- The fields of a `functionCall` part that the Claude transform
reads or writes. -/
structure FuncCall where
  name : Option String
  id : Option String
  deriving DecidableEq, Repr

/-- The fields of a `functionResponse` part that the Claude transform
reads or writes. -/
structure FuncResp where
  name : Option String
  id : Option String
  deriving DecidableEq, Repr

/-- A content part as the Claude transform's parts loop sees it. -/
structure Part where
  thought : Option Bool
  thoughtSignature : Option String
  text : Option String
  functionCall : Option FuncCall
  functionResponse : Option FuncResp
  deriving DecidableEq, Repr

/-- The mutable state threaded through the parts loop of
`transformClaudeRequest`: the process-wide signature cache, the
per-tool-name `funcCallIdQueues`, and a counter into the `randomUUID`
supply. -/
structure PartsState where
  cache : SigCache
  queues : String → List String
  uuidCount : Nat

/-- The `functionCall`/`functionResponse` id bookkeeping of the parts
loop (claude.ts): a function call with a name but no truthy id gets a
synthetic `name-uuid` id; every named call's id is pushed on the
per-name queue; a named response with no truthy id takes the oldest
queued id of the same name. -/
def processCallParts (uuids : Nat → String) (st : PartsState) (part : Part) :
    PartsState × Option Part :=
  let step1 : Part × (String → List String) × Nat :=
    match part.functionCall with
    | some fc =>
      match fc.name with
      | some nm =>
        let assigned : FuncCall × Nat :=
          if !Token.optStrTruthy fc.id then
            ({ fc with id := some (nm ++ "-" ++ uuids st.uuidCount) }, st.uuidCount + 1)
          else (fc, st.uuidCount)
        let queues1 : String → List String :=
          fun n => if n = nm then st.queues nm ++ [assigned.1.id.getD ""] else st.queues n
        ({ part with functionCall := some assigned.1 }, queues1, assigned.2)
      | none => (part, st.queues, st.uuidCount)
    | none => (part, st.queues, st.uuidCount)
  let part2 := step1.1
  let queues1 := step1.2.1
  let step2 : Part × (String → List String) :=
    match part2.functionResponse with
    | some fr =>
      match fr.name with
      | some nm =>
        if !Token.optStrTruthy fr.id then
          match queues1 nm with
          | idh :: idt =>
            ({ part2 with functionResponse := some { fr with id := some idh } },
              fun n => if n = nm then idt else queues1 n)
          | [] => (part2, queues1)
        else (part2, queues1)
      | none => (part2, queues1)
    | none => (part2, queues1)
  (⟨st.cache, step2.2, step1.2.2⟩, some step2.1)

/-- One iteration of the parts loop of `transformClaudeRequest`
(claude.ts): a `thought === true` part with a missing or under-50
signature is restored from the same-family cache when possible; it is
kept only when the resulting signature is a string longer than 50
characters, in which case its (text, signature) pair is cached (given a
truthy session id); otherwise it is dropped.  Parts that survive go
through the call-id bookkeeping. -/
def processPart (family : Accounts.ModelFamily) (sessionId : String)
    (uuids : Nat → String) (st : PartsState) (part : Part) : PartsState × Option Part :=
  if part.thought = some true then
    let sig0 := part.thoughtSignature
    let restoreNeeded : Bool :=
      !Token.optStrTruthy sig0 ||
        (match sig0 with | some s => decide (s.length < 50) | none => false)
    let restored : Option String :=
      if restoreNeeded then
        match part.text with
        | some txt => getCachedSignature family sessionId txt st.cache
        | none => none
      else none
    let part1 : Part :=
      match restored with
      | some c => { part with thoughtSignature := some c }
      | none => part
    let signature : Option String :=
      match restored with
      | some c => some c
      | none => sig0
    match signature with
    | some s =>
      if 50 < s.length then
        let cache1 : SigCache :=
          match part1.text with
          | some txt =>
            if sessionId ≠ "" then cacheSignature family sessionId txt s st.cache
            else st.cache
          | none => st.cache
        processCallParts uuids ⟨cache1, st.queues, st.uuidCount⟩ part1
      else (st, none)
    | none => (st, none)
  else
    processCallParts uuids st part

/-- The whole `for (const part of parts)` loop: thread the state and
collect the surviving parts in order. -/
def processParts (family : Accounts.ModelFamily) (sessionId : String)
    (uuids : Nat → String) : PartsState → List Part → List Part × PartsState
  | st, [] => ([], st)
  | st, p :: rest =>
    let head := processPart family sessionId uuids st p
    let tail := processParts family sessionId uuids head.1 rest
    match head.2 with
    | some q => (q :: tail.1, tail.2)
    | none => tail

/-- A part whose function-call and function-response fields already
carry truthy ids (or no names), so the id bookkeeping leaves it
unchanged. -/
def callIdsPresent (p : Part) : Bool :=
  (match p.functionCall with
    | some fc => fc.name = none || Token.optStrTruthy fc.id
    | none => true) &&
  (match p.functionResponse with
    | some fr => fr.name = none || Token.optStrTruthy fr.id
    | none => true)

end Claude

theorem Claude.processCallParts_cache (uuids : Nat → String) (st : Claude.PartsState)
    (p : Claude.Part) : ((Claude.processCallParts uuids st p).1).cache = st.cache := rfl

theorem Claude.processCallParts_part (uuids : Nat → String) (st : Claude.PartsState)
    (p : Claude.Part) (hid : Claude.callIdsPresent p = true) :
    (Claude.processCallParts uuids st p).2 = some p := by
  obtain ⟨th, ts, tx, ofc, ofr⟩ := p
  rcases ofc with _ | ⟨fcn, fci⟩ <;> rcases ofr with _ | ⟨frn, fri⟩ <;>
    [skip; rcases frn with _ | nm2; rcases fcn with _ | nm;
     (rcases fcn with _ | nm <;> rcases frn with _ | nm2)] <;>
    simp_all [Claude.callIdsPresent, Claude.processCallParts]

theorem Claude.processPart_nonThought (family : Accounts.ModelFamily) (sid : String)
    (uuids : Nat → String) (st : Claude.PartsState) (p : Claude.Part)
    (hth : p.thought ≠ some true) :
    Claude.processPart family sid uuids st p = Claude.processCallParts uuids st p := by
  unfold Claude.processPart
  rw [if_neg hth]

theorem Claude.processPart_longSig (sid : String) (uuids : Nat → String)
    (st : Claude.PartsState) (sA tA : String) (hsid : sid ≠ "") (hA : 50 < sA.length) :
    Claude.processPart .claude sid uuids st ⟨some true, some sA, some tA, none, none⟩ =
      ((⟨Claude.cacheSignature .claude sid tA sA st.cache, st.queues, st.uuidCount⟩ :
          Claude.PartsState),
        some ⟨some true, some sA, some tA, none, none⟩) := by
  have hne : sA ≠ "" := by
    intro h
    rw [h] at hA
    simp at hA
  have hlt : ¬sA.length < 50 := by omega
  simp [Claude.processPart, Claude.processCallParts, Token.optStrTruthy, hne, hsid, hlt, hA]

theorem Claude.processPart_shortSig (sid : String) (uuids : Nat → String)
    (st : Claude.PartsState) (sigB : Option String) (tB : String)
    (hB : sigB = none ∨ ∃ sB, sigB = some sB ∧ sB.length < 50)
    (hmiss : st.cache (Claude.sigKey .claude sid tB) = none) :
    Claude.processPart .claude sid uuids st ⟨some true, sigB, some tB, none, none⟩ =
      (st, none) := by
  rcases hB with rfl | ⟨sB, rfl, hlen⟩
  · simp [Claude.processPart, Token.optStrTruthy, Claude.getCachedSignature, hmiss]
  · rcases eq_or_ne sB "" with rfl | hne
    · simp [Claude.processPart, Token.optStrTruthy, Claude.getCachedSignature, hmiss]
    · simp [Claude.processPart, Token.optStrTruthy, Claude.getCachedSignature, hmiss,
        hne, hlen, Nat.lt_asymm hlen]

theorem Claude.processPart_sig50 (sid : String) (uuids : Nat → String)
    (st : Claude.PartsState) (s50 t : String) (h50 : s50.length = 50) :
    Claude.processPart .claude sid uuids st ⟨some true, some s50, some t, none, none⟩ =
      (st, none) := by
  have hne : s50 ≠ "" := by
    intro h
    rw [h] at h50
    simp at h50
  have hlt : ¬s50.length < 50 := by omega
  have hgt : ¬50 < s50.length := by omega
  simp [Claude.processPart, Token.optStrTruthy, hne, hlt, hgt]

theorem Claude.scenario_chain (sid sA tA tB : String) (sigB : Option String)
    (ns1 ns2 ns3 : Claude.Part) (st0 : Claude.PartsState) (uuids : Nat → String)
    (hsid : sid ≠ "") (hA : 50 < sA.length)
    (hB : sigB = none ∨ ∃ sB, sigB = some sB ∧ sB.length < 50)
    (hkey : Claude.sigKey .claude sid tB ≠ Claude.sigKey .claude sid tA)
    (hmiss : st0.cache (Claude.sigKey .claude sid tB) = none)
    (h1 : ns1.thought ≠ some true) (h1i : Claude.callIdsPresent ns1 = true)
    (h2 : ns2.thought ≠ some true) (h2i : Claude.callIdsPresent ns2 = true)
    (h3 : ns3.thought ≠ some true) (h3i : Claude.callIdsPresent ns3 = true) :
    ∃ qf uf, Claude.processParts .claude sid uuids st0
        [ns1, ⟨some true, some sA, some tA, none, none⟩, ns2,
          ⟨some true, sigB, some tB, none, none⟩, ns3] =
      ([ns1, ⟨some true, some sA, some tA, none, none⟩, ns2, ns3],
        ⟨Claude.cacheSignature .claude sid tA sA st0.cache, qf, uf⟩) := by
  have hmiss3 :
      ((Claude.processCallParts uuids
          (⟨Claude.cacheSignature .claude sid tA sA st0.cache,
            ((Claude.processCallParts uuids st0 ns1).1).queues,
            ((Claude.processCallParts uuids st0 ns1).1).uuidCount⟩ : Claude.PartsState)
          ns2).1).cache (Claude.sigKey .claude sid tB) = none := by
    rw [Claude.processCallParts_cache]
    simp [Claude.cacheSignature, hkey, hmiss]
  simp only [Claude.processParts]
  rw [Claude.processPart_nonThought _ _ _ _ _ h1,
    Claude.processCallParts_part _ _ _ h1i]
  dsimp only
  rw [Claude.processPart_longSig sid uuids _ sA tA hsid hA]
  dsimp only
  rw [show ((Claude.processCallParts uuids st0 ns1).1).cache = st0.cache from rfl]
  rw [Claude.processPart_nonThought _ _ _ _ _ h2,
    Claude.processCallParts_part _ _ _ h2i]
  dsimp only
  rw [Claude.processPart_shortSig sid uuids _ sigB tB hB hmiss3]
  dsimp only
  rw [Claude.processPart_nonThought _ _ _ _ _ h3,
    Claude.processCallParts_part _ _ _ h3i]
  dsimp only
  exact ⟨_, _, rfl⟩

/-- C4 (amended): thinking parts in the Claude-family request
transform.  In a contents entry `[n1, A, n2, B, n3]` where `A` is a
thinking part with a signature of *more* than 50 characters and text
`tA`, `B` is a thinking part whose signature is missing or under 50
characters, with text `tB` and no cached signature for
`(claude, sessionId, tB)` (nor one created by `A`), and the `n` parts
are non-thinking parts whose call ids are already present: `A` is
preserved as-is, its `(text, signature)` pair becomes retrievable from
the claude-family cache under the same session id, `B` is dropped and
stays unretrievable, and the non-thinking parts survive unchanged in
their original relative order.  Separately, a thinking part whose
signature has *exactly* 50 characters is always dropped (the code
restores only below 50 and keeps only above 50). -/
theorem claim4_claude_thinking_blocks :
    (∀ (sid sA tA tB : String) (sigB : Option String) (ns1 ns2 ns3 : Claude.Part)
      (cache0 : Claude.SigCache) (uuids : Nat → String),
      sid ≠ "" → 50 < sA.length →
      (sigB = none ∨ ∃ sB, sigB = some sB ∧ sB.length < 50) →
      Claude.sigKey .claude sid tB ≠ Claude.sigKey .claude sid tA →
      cache0 (Claude.sigKey .claude sid tB) = none →
      ns1.thought ≠ some true → Claude.callIdsPresent ns1 = true →
      ns2.thought ≠ some true → Claude.callIdsPresent ns2 = true →
      ns3.thought ≠ some true → Claude.callIdsPresent ns3 = true →
      (Claude.processParts .claude sid uuids ⟨cache0, fun _ => [], 0⟩
          [ns1, ⟨some true, some sA, some tA, none, none⟩, ns2,
            ⟨some true, sigB, some tB, none, none⟩, ns3]).1 =
        [ns1, ⟨some true, some sA, some tA, none, none⟩, ns2, ns3] ∧
      Claude.getCachedSignature .claude sid tA
          ((Claude.processParts .claude sid uuids ⟨cache0, fun _ => [], 0⟩
            [ns1, ⟨some true, some sA, some tA, none, none⟩, ns2,
              ⟨some true, sigB, some tB, none, none⟩, ns3]).2).cache = some sA ∧
      Claude.getCachedSignature .claude sid tB
          ((Claude.processParts .claude sid uuids ⟨cache0, fun _ => [], 0⟩
            [ns1, ⟨some true, some sA, some tA, none, none⟩, ns2,
              ⟨some true, sigB, some tB, none, none⟩, ns3]).2).cache = none) ∧
    (∀ (sid t s50 : String) (uuids : Nat → String) (st : Claude.PartsState),
      s50.length = 50 →
      (Claude.processParts .claude sid uuids st
        [⟨some true, some s50, some t, none, none⟩]).1 = []) := by
  constructor
  · intro sid sA tA tB sigB ns1 ns2 ns3 cache0 uuids hsid hA hB hkey hmiss
      h1 h1i h2 h2i h3 h3i
    obtain ⟨qf, uf, hchain⟩ := Claude.scenario_chain sid sA tA tB sigB ns1 ns2 ns3
      ⟨cache0, fun _ => [], 0⟩ uuids hsid hA hB hkey hmiss h1 h1i h2 h2i h3 h3i
    rw [hchain]
    refine ⟨rfl, ?_, ?_⟩
    · simp [Claude.getCachedSignature, Claude.cacheSignature]
    · simp only [Claude.getCachedSignature, Claude.cacheSignature]
      rw [if_neg hkey]
      exact hmiss
  · intro sid t s50 uuids st h50
    simp only [Claude.processParts]
    rw [Claude.processPart_sig50 sid uuids st s50 t h50]

/-- Counterexample to C4 as stated: a thinking part whose signature has
exactly 50 characters — "at least 50" — is dropped, not preserved: the
transform keeps a block only when the signature is strictly longer than
50 characters (and its cache-restore path only fires strictly below
50). -/
theorem claim4_claude_thinking_blocks_counterexample :
    (String.mk (List.replicate 50 'a')).length = 50 ∧
    (Claude.processParts .claude "s" (fun _ => "u")
        ⟨fun _ => none, fun _ => [], 0⟩
        [⟨some true, some (String.mk (List.replicate 50 'a')), some "t", none, none⟩]).1 =
      [] := by
  refine ⟨by decide, ?_⟩
  simp only [Claude.processParts]
  rw [Claude.processPart_sig50 "s" (fun _ => "u") _ (String.mk (List.replicate 50 'a')) "t"
    (by decide)]

/-- Witness for C4 at a concrete scenario: session `"s"`, a 51-character
signature on text `"a"`, a missing signature on text `"b"`, and plain
text parts around them. -/
theorem claim4_claude_thinking_blocks_witness :
    (("s" : String) ≠ "" ∧
      50 < (String.mk (List.replicate 51 'a')).length ∧
      (Claude.processParts .claude "s" (fun _ => "u") ⟨fun _ => none, fun _ => [], 0⟩
          [⟨none, none, some "x", none, none⟩,
            ⟨some true, some (String.mk (List.replicate 51 'a')), some "a", none, none⟩,
            ⟨none, none, some "y", none, none⟩,
            ⟨some true, none, some "b", none, none⟩,
            ⟨none, none, some "z", none, none⟩]).1 =
        [⟨none, none, some "x", none, none⟩,
          ⟨some true, some (String.mk (List.replicate 51 'a')), some "a", none, none⟩,
          ⟨none, none, some "y", none, none⟩,
          ⟨none, none, some "z", none, none⟩] ∧
      Claude.getCachedSignature .claude "s" "a"
          ((Claude.processParts .claude "s" (fun _ => "u") ⟨fun _ => none, fun _ => [], 0⟩
            [⟨none, none, some "x", none, none⟩,
              ⟨some true, some (String.mk (List.replicate 51 'a')), some "a", none, none⟩,
              ⟨none, none, some "y", none, none⟩,
              ⟨some true, none, some "b", none, none⟩,
              ⟨none, none, some "z", none, none⟩]).2).cache =
        some (String.mk (List.replicate 51 'a')) ∧
      Claude.getCachedSignature .claude "s" "b"
          ((Claude.processParts .claude "s" (fun _ => "u") ⟨fun _ => none, fun _ => [], 0⟩
            [⟨none, none, some "x", none, none⟩,
              ⟨some true, some (String.mk (List.replicate 51 'a')), some "a", none, none⟩,
              ⟨none, none, some "y", none, none⟩,
              ⟨some true, none, some "b", none, none⟩,
              ⟨none, none, some "z", none, none⟩]).2).cache = none) ∧
    ((String.mk (List.replicate 50 'b')).length = 50 ∧
      (Claude.processParts .claude "s" (fun _ => "u") ⟨fun _ => none, fun _ => [], 0⟩
        [⟨some true, some (String.mk (List.replicate 50 'b')), some "t", none, none⟩]).1 =
      []) :=
  ⟨⟨by decide, by decide,
    claim4_claude_thinking_blocks.1 "s" (String.mk (List.replicate 51 'a')) "a" "b" none
      ⟨none, none, some "x", none, none⟩ ⟨none, none, some "y", none, none⟩
      ⟨none, none, some "z", none, none⟩ (fun _ => none) (fun _ => "u")
      (by decide) (by decide) (Or.inl rfl) (by decide) rfl
      (by decide) rfl (by decide) rfl (by decide) rfl⟩,
   ⟨by decide,
    claim4_claude_thinking_blocks.2 "s" "t" (String.mk (List.replicate 50 'b'))
      (fun _ => "u") ⟨fun _ => none, fun _ => [], 0⟩ (by decide)⟩⟩

namespace Gemini

/-- A JSON schema value as the tool-schema cache reads it: its `type`
(when a string), `items` and `properties` fields. -/
inductive JSchema where
  | mk (ty : Option String) (items : Option JSchema)
      (properties : Option (List (String × JSchema)))

/-- `SchemaInfo` (tool-schema-cache.ts). -/
inductive SchemaInfo where
  | mk (ty : String) (items : Option SchemaInfo)
      (properties : Option (List (String × SchemaInfo)))

/-- The `type` field of a `SchemaInfo`. -/
def SchemaInfo.type : SchemaInfo → String
  | .mk t _ _ => t

mutual

/-- `extractSchemaInfo` (tool-schema-cache.ts): take `schema?.type ||
"unknown"` (JS truthiness: an empty string also falls back), recurse
into `items` for arrays and into every property for objects. -/
def extractSchemaInfo : JSchema → SchemaInfo
  | .mk ty items props =>
    let t : String :=
      match ty with
      | some s => if s = "" then "unknown" else s
      | none => "unknown"
    if t = "array" then
      match items with
      | some it => .mk t (some (extractSchemaInfo it)) none
      | none => .mk t none none
    else if t = "object" then
      match props with
      | some ps => .mk t none (some (extractProps ps))
      | none => .mk t none none
    else .mk t none none

/-- The recursion of `extractSchemaInfo` over `Object.entries` of a
`properties` object. -/
def extractProps : List (String × JSchema) → List (String × SchemaInfo)
  | [] => []
  | (k, v) :: rest => (k, extractSchemaInfo v) :: extractProps rest

end

/-- The per-tool parameter map, `Map<paramName, SchemaInfo>`, as an
entry list in insertion order (a JS object never has duplicate keys, so
`lookup` agrees with `Map.get`). -/
def ParamMap := List (String × SchemaInfo)

/-- `toolSchemaCache` (tool-schema-cache.ts): `Map<toolName, ParamMap>`. -/
def ToolSchemaCache := String → Option ParamMap

/-- `sanitizeToolNameForGemini` (transform/types.ts) and its identical
copy `sanitizeToolName` (tool-schema-cache.ts): a name matching
`^[0-9]` gets the `t_` prefix. -/
def sanitizeToolName (name : String) : String :=
  match name.data with
  | c :: _ => if c.isDigit then "t_" ++ name else name
  | [] => name

/-- The fields of a function declaration the tool machinery reads. -/
structure FunctionDecl where
  name : Option String
  parameters : Option JSchema
  parametersJsonSchema : Option JSchema

/-- A `tools` array entry. -/
structure Tool where
  functionDeclarations : Option (List FunctionDecl)

/-- `sanitizeToolNames` (transform/types.ts): rename every string-named
function declaration in the payload's tools. -/
def sanitizeToolNames (tools : Option (List Tool)) : Option (List Tool) :=
  match tools with
  | none => none
  | some ts => some (ts.map fun t =>
      { t with functionDeclarations := t.functionDeclarations.map fun ds =>
          ds.map fun d =>
            match d.name with
            | some nm => { d with name := some (sanitizeToolName nm) }
            | none => d })

/-- Caching of one function declaration (`cacheToolSchemas` body): read
`parametersJsonSchema ?? parameters`, skip when there is no schema or
no `properties` object, extract the parameter map and store it under
the sanitized name — and additionally under the original name when the
two differ. -/
def cacheDecl (cache : ToolSchemaCache) (d : FunctionDecl) : ToolSchemaCache :=
  match d.name with
  | none => cache
  | some originalName =>
    let sanitized := sanitizeToolName originalName
    let schema : Option JSchema :=
      match d.parametersJsonSchema with
      | some s => some s
      | none => d.parameters
    match schema with
    | none => cache
    | some (.mk _ _ none) => cache
    | some (.mk _ _ (some ps)) =>
      let paramMap := extractProps ps
      let c1 : ToolSchemaCache := fun n => if n = sanitized then some paramMap else cache n
      if sanitized ≠ originalName then
        fun n => if n = originalName then some paramMap else c1 n
      else c1

/-- `cacheToolSchemas` (tool-schema-cache.ts). -/
def cacheToolSchemas (tools : Option (List Tool)) (cache : ToolSchemaCache) :
    ToolSchemaCache :=
  match tools with
  | none => cache
  | some ts => ts.foldl (fun c t =>
      match t.functionDeclarations with
      | some ds => ds.foldl cacheDecl c
      | none => c) cache

/-- `getParamType` (tool-schema-cache.ts):
`toolSchemaCache.get(toolName)?.get(paramName)?.type`. -/
def getParamType (cache : ToolSchemaCache) (toolName paramName : String) :
    Option String :=
  match cache toolName with
  | some pm => (pm.lookup paramName).map SchemaInfo.type
  | none => none

end Gemini

namespace Gemini

/-- A JSON value, for tool-call arguments. -/
inductive JsVal where
  | str (s : String)
  | num (n : Int)
  | boolean (b : Bool)
  | null
  | arr (xs : List JsVal)
  | obj (fields : List (String × JsVal))

/-- JS `String.prototype.includes`: substring test. -/
def strIncludesAux (sub : List Char) : List Char → Bool
  | [] => decide (sub = [])
  | c :: rest => sub.isPrefixOf (c :: rest) || strIncludesAux sub rest

/-- JS `s.includes(sub)`. -/
def strIncludes (s sub : String) : Bool :=
  strIncludesAux sub.data s.data

/-- `processEscapeSequencesOnly` (response normalization): a string with
control-character escapes (`\n`, `\t`) but no intentional escapes
(`\"`, `\\`) is unescaped by quoting it and running it through
`JSON.parse`; everything else passes through.  `unescape` abstracts the
platform `JSON.parse('"' + value.replaceAll('"', '\"') + '"')` call —
`none` means it threw or returned a non-string. -/
def processEscapeSequencesOnly (unescape : String → Option String) (value : JsVal) :
    JsVal :=
  match value with
  | .str v =>
    let hasControlCharEscapes := strIncludes v "\\n" || strIncludes v "\\t"
    let hasIntentionalEscapes := strIncludes v "\\\"" || strIncludes v "\\\\"
    if hasControlCharEscapes && !hasIntentionalEscapes then
      match unescape v with
      | some u => .str u
      | none => value
    else value
  | _ => value

/-- `Object.entries` of an argument value that passes the
`typeof args === "object"` check: an object's fields, or an array's
index-keyed entries; `none` for everything else (including `null`,
which the `!args` guard catches first). -/
def jsEntries : JsVal → Option (List (String × JsVal))
  | .obj fields => some fields
  | .arr xs => some (xs.enum.map fun p => (toString p.1, p.2))
  | _ => none

/-- One entry of `normalizeToolCallArgs` (response normalization):
schema type `string` → only unescape control characters; a string value
whose schema type is `array`/`object` → try `JSON.parse` (abstracted as
`jsonParse`; `none` means it threw), falling back to escape processing;
no schema, any other type, or a non-string value → escape processing
only. -/
def normalizeArgValue (jsonParse : String → Option JsVal)
    (unescape : String → Option String) (cache : ToolSchemaCache)
    (toolName key : String) (value : JsVal) : JsVal :=
  let expectedType := getParamType cache toolName key
  if expectedType = some "string" then processEscapeSequencesOnly unescape value
  else
    match value with
    | .str s =>
      if expectedType = some "array" || expectedType = some "object" then
        match jsonParse s with
        | some parsed => parsed
        | none => processEscapeSequencesOnly unescape value
      else processEscapeSequencesOnly unescape value
    | _ => processEscapeSequencesOnly unescape value

/-- `normalizeToolCallArgs` (response normalization): a non-object
argument value passes through; an object's every entry is normalized
according to the cached schema of `toolName`. -/
def normalizeToolCallArgs (jsonParse : String → Option JsVal)
    (unescape : String → Option String) (cache : ToolSchemaCache)
    (args : JsVal) (toolName : String) : JsVal :=
  match jsEntries args with
  | none => args
  | some fields =>
    .obj (fields.map fun kv => (kv.1, normalizeArgValue jsonParse unescape cache toolName kv.1 kv.2))

end Gemini

/-- C8: tool-name sanitization round-trips through the schema cache.
(1) A tool name beginning with a digit is renamed with the `t_` prefix,
and (2) `sanitizeToolNames` applies exactly that renaming to a function
declaration in the outgoing payload.  (3) After `cacheToolSchemas` has
run on a tools list containing a declaration with a
`parametersJsonSchema` carrying properties, `getParamType` resolves
every parameter to the same schema type under the sanitized name as
under the original name.  (4) `normalizeToolCallArgs` depends on the
cache only through `getParamType` of its tool name, so two names that
resolve identically — such as the sanitized and original names —
produce identical schema-aware coercion. -/
theorem claim8_tool_name_sanitization :
    (∀ (name : String) (c : Char) (rest : List Char),
      name.data = c :: rest → c.isDigit = true →
      Gemini.sanitizeToolName name = "t_" ++ name) ∧
    (∀ (d : Gemini.FunctionDecl) (nm : String), d.name = some nm →
      Gemini.sanitizeToolNames (some [⟨some [d]⟩]) =
        some [⟨some [{ d with name := some (Gemini.sanitizeToolName nm) }]⟩]) ∧
    (∀ (nm : String) (d : Gemini.FunctionDecl) (ty : Option String)
      (items : Option Gemini.JSchema) (ps : List (String × Gemini.JSchema))
      (cache0 : Gemini.ToolSchemaCache),
      d.name = some nm →
      d.parametersJsonSchema = some (Gemini.JSchema.mk ty items (some ps)) →
      ∀ param : String,
        Gemini.getParamType (Gemini.cacheToolSchemas (some [⟨some [d]⟩]) cache0)
            (Gemini.sanitizeToolName nm) param =
          Gemini.getParamType (Gemini.cacheToolSchemas (some [⟨some [d]⟩]) cache0)
            nm param) ∧
    (∀ (jsonParse : String → Option Gemini.JsVal) (unescape : String → Option String)
      (cache : Gemini.ToolSchemaCache) (n1 n2 : String) (args : Gemini.JsVal),
      (∀ p, Gemini.getParamType cache n1 p = Gemini.getParamType cache n2 p) →
      Gemini.normalizeToolCallArgs jsonParse unescape cache args n1 =
        Gemini.normalizeToolCallArgs jsonParse unescape cache args n2) := by
  refine ⟨fun name c rest hdata hdig => ?_, fun d nm hname => ?_,
          fun nm d ty items ps cache0 hname hpjs param => ?_,
          fun jsonParse unescape cache n1 n2 args h => ?_⟩
  · simp only [Gemini.sanitizeToolName, hdata]
    rw [if_pos hdig]
  · simp [Gemini.sanitizeToolNames, hname]
  · simp only [Gemini.cacheToolSchemas, List.foldl_cons, List.foldl_nil]
    simp only [Gemini.cacheDecl, hname, hpjs]
    by_cases h : Gemini.sanitizeToolName nm = nm
    · rw [h]
    · simp only [ne_eq, h, not_false_iff, if_true, Gemini.getParamType]
      simp [h]
  · unfold Gemini.normalizeToolCallArgs
    cases Gemini.jsEntries args with
    | none => rfl
    | some fields => simp [Gemini.normalizeArgValue, h]

/-- Witness for C8 at the concrete tool name `"21st-dev-magic"` with a
one-parameter object schema, and a concrete argument object. -/
theorem claim8_tool_name_sanitization_witness :
    (("21st-dev-magic" : String).data = '2' :: "1st-dev-magic".data ∧
      Gemini.sanitizeToolName "21st-dev-magic" = "t_" ++ "21st-dev-magic") ∧
    (∀ param : String,
      Gemini.getParamType
          (Gemini.cacheToolSchemas
            (some [⟨some [⟨some "21st-dev-magic", none,
              some (Gemini.JSchema.mk (some "object") none
                (some [("file", Gemini.JSchema.mk (some "string") none none)]))⟩]⟩])
            fun _ => none)
          (Gemini.sanitizeToolName "21st-dev-magic") param =
        Gemini.getParamType
          (Gemini.cacheToolSchemas
            (some [⟨some [⟨some "21st-dev-magic", none,
              some (Gemini.JSchema.mk (some "object") none
                (some [("file", Gemini.JSchema.mk (some "string") none none)]))⟩]⟩])
            fun _ => none)
          "21st-dev-magic" param) ∧
    Gemini.normalizeToolCallArgs (fun _ => none) (fun _ => none) (fun _ => none)
        (Gemini.JsVal.obj [("k", Gemini.JsVal.str "v")]) "a" =
      Gemini.normalizeToolCallArgs (fun _ => none) (fun _ => none) (fun _ => none)
        (Gemini.JsVal.obj [("k", Gemini.JsVal.str "v")]) "b" :=
  ⟨⟨by decide,
    claim8_tool_name_sanitization.1 "21st-dev-magic" '2' "1st-dev-magic".data
      (by decide) (by decide)⟩,
   claim8_tool_name_sanitization.2.2.1 "21st-dev-magic"
     ⟨some "21st-dev-magic", none,
       some (Gemini.JSchema.mk (some "object") none
         (some [("file", Gemini.JSchema.mk (some "string") none none)]))⟩
     (some "object") none [("file", Gemini.JSchema.mk (some "string") none none)]
     (fun _ => none) rfl rfl,
   claim8_tool_name_sanitization.2.2.2 (fun _ => none) (fun _ => none) (fun _ => none)
     "a" "b" (Gemini.JsVal.obj [("k", Gemini.JsVal.str "v")]) (fun p => rfl)⟩
